import Mathlib

/-!
Verification development for the paper-downloader repository.

The Python sources under src/ are shallowly embedded as executable Lean
definitions: strings are Lean `String`s (lists of `Char`), regular-expression
substitutions are modelled by explicit character scans, the filesystem is a
list of paths, and network traffic is an oracle function threaded through the
pipeline together with an event log.  Machine behaviour that Python reports by
raising (AttributeError on a missing attribute, IndexError on a bad index) is
modelled with `Except`.
-/

namespace PD

/-- Python exception outcomes that the embedded code can produce. -/
inductive PyErr
  | attributeError
  | indexError
  deriving DecidableEq, Repr

/-! ## Character / string primitives (models of Python str methods) -/

/-- Model of Python's `\w` word-character class, restricted to ASCII
(letters, digits, underscore). -/
def isWordChar (c : Char) : Bool := c.isAlphanum || c = '_'

/-- The character class `[/.]` of `re.sub('[/.]+', '', title)`. -/
def isSlashDot (c : Char) : Bool := c = '/' || c = '.'

/-- Model of Python's `str.find(c)`: index of the first occurrence, `-1` if
absent. -/
def findCharIdx : List Char → Char → Int
  | [], _ => -1
  | a :: t, c =>
    if a = c then 0
    else
      let r := findCharIdx t c
      if r = -1 then -1 else r + 1

/-- Model of Python's `str.rfind(c)`: index of the last occurrence, `-1` if
absent. -/
def rfindCharIdx : List Char → Char → Int
  | [], _ => -1
  | a :: t, c =>
    let r := rfindCharIdx t c
    if r ≠ -1 then r + 1
    else if a = c then 0 else -1

/-- Model of Python's `str.strip()` on a character list: whitespace removed
from both ends. -/
def stripChars (l : List Char) : List Char :=
  ((l.dropWhile Char.isWhitespace).reverse.dropWhile Char.isWhitespace).reverse

/-- Model of Python's `str.strip()`. -/
def pyStrip (s : String) : String := String.mk (stripChars s.data)

/-- ASCII lowercase mapping of a character, written as an explicit table. -/
def asciiLower (c : Char) : Char :=
  match c with
  | 'A' => 'a' | 'B' => 'b' | 'C' => 'c' | 'D' => 'd' | 'E' => 'e' | 'F' => 'f'
  | 'G' => 'g' | 'H' => 'h' | 'I' => 'i' | 'J' => 'j' | 'K' => 'k' | 'L' => 'l'
  | 'M' => 'm' | 'N' => 'n' | 'O' => 'o' | 'P' => 'p' | 'Q' => 'q' | 'R' => 'r'
  | 'S' => 's' | 'T' => 't' | 'U' => 'u' | 'V' => 'v' | 'W' => 'w' | 'X' => 'x'
  | 'Y' => 'y' | 'Z' => 'z' | c => c

/-- Model of Python's `str.lower()` (ASCII fragment). -/
def pyLower (s : String) : String := String.mk (s.data.map asciiLower)

/-- Python's `url[:n] == proto` slice comparison used to test a protocol. -/
def sliceEq (l p : List Char) : Bool := l.take p.length = p

/-- Python's `url.lower().endswith('.pdf')`. -/
def lowerEndsWithPdf (u : String) : Bool :=
  ".pdf".data.isSuffixOf (pyLower u).data

/-- Model of `re.sub` with a pattern `X+` (one or more characters of class
`p`) and a fixed replacement: every maximal run of `p`-characters is replaced
by `rep`.  Defined structurally with an `inRun` flag so it computes by `rfl`. -/
def subRunsGo (p : Char → Bool) (rep : List Char) : Bool → List Char → List Char
  | _, [] => []
  | inRun, c :: rest =>
    if p c then (if inRun then [] else rep) ++ subRunsGo p rep true rest
    else c :: subRunsGo p rep false rest

/-- Replace every maximal run of `p`-characters in `l` by `rep`. -/
def subRuns (p : Char → Bool) (rep : List Char) (l : List Char) : List Char :=
  subRunsGo p rep false l

/-! ## URL helpers (src/core/utils.py and src/utils.py) -/

/-- `get_root_url` from src/core/utils.py and src/utils.py: for an
`https://`/`http://` URL, the slice up to the first `/` after the protocol
(Python's `find` returning `-1` shortens the slice by one); otherwise the
empty string. -/
def getRootUrl (url : String) : String :=
  String.mk (url.data.take
    (if sliceEq url.data "https://".data then 8 + findCharIdx (url.data.drop 8) '/'
     else if sliceEq url.data "http://".data then 7 + findCharIdx (url.data.drop 7) '/'
     else (0 : Int)).toNat)

/-- `get_prefix_url` from src/core/utils.py and src/utils.py: like
`getRootUrl` but slicing up to the last `/` after the protocol. -/
def getPrefixUrl (url : String) : String :=
  String.mk (url.data.take
    (if sliceEq url.data "https://".data then 8 + rfindCharIdx (url.data.drop 8) '/'
     else if sliceEq url.data "http://".data then 7 + rfindCharIdx (url.data.drop 7) '/'
     else (0 : Int)).toNat)

/-- `get_absolute_url` from src/core/utils.py and src/utils.py. -/
def getAbsoluteUrl (url relativeUrl : String) : String :=
  if relativeUrl = "" then ""
  else if sliceEq relativeUrl.data "https://".data
       || sliceEq relativeUrl.data "http://".data then relativeUrl
  else if relativeUrl.data.head? = some '/' then getRootUrl url ++ relativeUrl
  else getPrefixUrl url ++ "/" ++ relativeUrl

/-- `get_file_extension_name_or_default` from src/utils.py: the lowercased
suffix from the last dot when it matches `^\.[a-zA-Z]+$`, else the default. -/
def extMatchesDotLetters (s : String) : Bool :=
  match s.data with
  | '.' :: rest => !rest.isEmpty && rest.all Char.isAlpha
  | _ => false

/-- `get_file_extension_name_or_default(url, default_value)` from
src/utils.py. -/
def getFileExtensionNameOrDefault (url dflt : String) : String :=
  if rfindCharIdx url.data '.' = -1 then dflt
  else if extMatchesDotLetters
      (pyLower (String.mk (url.data.drop (rfindCharIdx url.data '.').toNat))) then
    pyLower (String.mk (url.data.drop (rfindCharIdx url.data '.').toNat))
  else dflt

/-! ## Filename derivation (src/core/venue.py `_Base._get_filename` and
src/venue.py `Base._get_filename`) -/

/-- Model of POSIX `os.path.join(a, b)` for two components: `b` wins when
absolute; otherwise a `/` separator is inserted unless `a` is empty or
already ends in `/`. -/
def pyPathJoin (a b : String) : String :=
  if b.data.head? = some '/' then b
  else if a = "" then b
  else if a.data.getLast? = some '/' then a ++ b
  else a ++ "/" ++ b

/-- The extension part of `os.path.splitext(p)`: the suffix from the last
dot, provided that dot lies after the last `/` and the basename does not
consist solely of dots up to it. -/
def pySplitextExt (p : String) : String :=
  let l := p.data
  let sep := rfindCharIdx l '/'
  let dot := rfindCharIdx l '.'
  if sep < dot then
    let between := (l.take dot.toNat).drop (sep + 1).toNat
    if between.any (fun c => c ≠ '.') then String.mk (l.drop dot.toNat) else ""
  else ""

/-- The title sanitization shared by both `_get_filename` variants:
`re.sub('[/.]+', '', title)` followed by `re.sub(r'\W+', '-', title)`. -/
def sanitizeTitle (title : String) : String :=
  String.mk (subRuns (fun c => !isWordChar c) ['-'] (subRuns isSlashDot [] title.data))

/-- `_Base._get_filename` from src/core/venue.py: sanitized title joined
under the save directory, optional `-<suffix>`, extension from
`os.path.splitext` defaulting to `.pdf` when empty. -/
def coreGetFilename (saveDir title url : String) (nameSuffix : Option String) : String :=
  let pathname := pyPathJoin saveDir (sanitizeTitle title)
  let pathname :=
    match nameSuffix with
    | none => pathname
    | some sfx => if sfx = "" then pathname else pathname ++ "-" ++ sfx
  let ext := pySplitextExt url
  pathname ++ (if ext = "" then ".pdf" else ext)

/-- `Base._get_filename` from src/venue.py: same as `coreGetFilename` except
the extension comes from `get_file_extension_name_or_default(url, '.pdf')`. -/
def srcGetFilename (saveDir title url : String) (nameSuffix : Option String) : String :=
  let pathname := pyPathJoin saveDir (sanitizeTitle title)
  let pathname :=
    match nameSuffix with
    | none => pathname
    | some sfx => if sfx = "" then pathname else pathname ++ "-" ++ sfx
  pathname ++ getFileExtensionNameOrDefault url ".pdf"

/-! ## Markup query model (src/html_parser.py)

A `Tag` abstracts one node returned by a CSS-selector query: its name, its
text content, and its `href` attribute when present. -/

structure Tag where
  name : String
  text : String
  href : Option String
  deriving DecidableEq, Repr

/-- `get_text` from src/html_parser.py: `None` when the tag has no (falsy)
text, otherwise the stripped text. -/
def getText (t : Tag) : Option String :=
  if t.text = "" then none else some (pyStrip t.text)

/-- `get_href` from src/html_parser.py: `None` unless the tag is an `a` with
an `href` attribute, in which case the stripped attribute value. -/
def getHref (t : Tag) : Option String :=
  match t.href with
  | none => none
  | some h => if t.name ≠ "a" then none else some (pyStrip h)

/-- `get_text_first` from src/html_parser.py. -/
def getTextFirst : List Tag → Option String
  | [] => none
  | t :: _ => getText t

/-- `get_href_first` from src/html_parser.py. -/
def getHrefFirst : List Tag → Option String
  | [] => none
  | t :: _ => getHref t

/-! ## Listing resolution (src/core/venue.py) -/

/-- The body of the `for title_tag, url_tag in zip(...)` loop of
`_Base._get_paper_list_by_diy`: pairs missing a (truthy) title or href are
skipped, surviving URLs are made absolute against the listing URL. -/
def diyPairs (baseUrl : String) : List (Tag × Tag) → List (String × String)
  | [] => []
  | (tt, ut) :: rest =>
    match getText tt with
    | none => diyPairs baseUrl rest
    | some title =>
      if title = "" then diyPairs baseUrl rest
      else
        match getHref ut with
        | none => diyPairs baseUrl rest
        | some link =>
          if link = "" then diyPairs baseUrl rest
          else (title, getAbsoluteUrl baseUrl link) :: diyPairs baseUrl rest

/-- The claim's reading of one DIY pair: drop it when a title text or an
href is missing (or empty), otherwise keep the trimmed title with the
extracted URL made absolute against the listing URL. -/
def diyPairSpec (baseUrl : String) (tu : Tag × Tag) : Option (String × String) :=
  match getText tu.1, getHref tu.2 with
  | some title, some link =>
    if title ≠ "" ∧ link ≠ "" then some (title, getAbsoluteUrl baseUrl link) else none
  | _, _ => none

/-- `_Base._get_paper_list_by_diy` from src/core/venue.py, applied to the
strategy's extraction result: `None` or a length mismatch yields the empty
list (logged as error in the source). -/
def getPaperListByDiy (baseUrl : String)
    (res : Option (List Tag × List Tag)) : List (String × String) :=
  match res with
  | none => []
  | some (titles, urls) =>
    if titles.length ≠ urls.length then []
    else diyPairs baseUrl (titles.zip urls)

/-- One DBLP entry node: the matches of its `.title` selector and of its
`.drop-down:first-child a` selector. -/
structure DblpEntry where
  titleTags : List Tag
  dropDownLinks : List Tag
  deriving DecidableEq, Repr

/-- The entry loop of `_Base._get_paper_list_by_dblp` from src/core/venue.py:
entries without a truthy title are dropped; the paired URL is
`get_href_first` of the drop-down links, which may be `None`. -/
def dblpPairs : List DblpEntry → List (String × Option String)
  | [] => []
  | e :: rest =>
    match getTextFirst e.titleTags with
    | none => dblpPairs rest
    | some title =>
      if title = "" then dblpPairs rest
      else (title, getHrefFirst e.dropDownLinks) :: dblpPairs rest

/-! ## Paper Processor (src/core/venue.py `_Base.process_one` and the
download helpers)

The filesystem is the list of existing paths; network effects are recorded in
an event log and answered by a deterministic oracle. -/

/-- An observable side effect of the pipeline. -/
inductive Ev
  | fetchHtml (url : String)
  | headRequest (url : String)
  | downloadFile (url : String) (path : String)
  | extractFileUrl
  | extractSlidesUrl
  deriving DecidableEq, Repr

/-- Pipeline state: the files existing under the save directory, and the log
of network / extraction events so far. -/
structure St where
  files : List String
  evs : List Ev
  deriving DecidableEq, Repr

/-- Deterministic environment for one run: the venue configuration and the
network oracle. -/
structure Cfg where
  saveDir : String
  /-- `None` models `self.keyword` being falsy; otherwise the truth value of
  `re.search(keyword, title, re.IGNORECASE)` as a function of the title. -/
  keywordMatch : Option (String → Bool)
  /-- `downloader.download_html`: page text, or `None` on a fetch failure. -/
  html : String → Option String
  /-- `downloader.get_real_url`: the URL after redirects. -/
  realUrl : String → String
  /-- Whether `downloader.download_file` succeeds in writing the file. -/
  downloadOk : String → Bool
  /-- The strategy's `_get_paper_file_url` on the detail page text. -/
  fileUrl : String → Option String
  /-- The strategy's `_get_slides_file_url` on the detail page text. -/
  slidesUrl : String → Option String

/-- `_Base._download_paper` / `_Base._download_slides` from
src/core/venue.py: an empty URL or an already-existing target path performs
nothing; otherwise `download_file` is attempted and the file appears exactly
when the request succeeds. -/
def downloadTo (cfg : Cfg) (st : St) (fileUrl title sfx : String) : St :=
  if fileUrl = "" then st
  else
    let fn := coreGetFilename cfg.saveDir title fileUrl (some sfx)
    if fn ∈ st.files then st
    else
      { files := if cfg.downloadOk fileUrl then fn :: st.files else st.files,
        evs := st.evs ++ [Ev.downloadFile fileUrl fn] }

/-- `_Base._paper_url_is_file_url` from src/core/venue.py, on a URL that is a
string: `.pdf` suffix check first (no request), then a redirect-following
head request. -/
def paperUrlIsFileUrl (cfg : Cfg) (st : St) (url : String) : Bool × St :=
  if lowerEndsWithPdf url then (true, st)
  else
    let r := cfg.realUrl url
    let st := { st with evs := st.evs ++ [Ev.headRequest url] }
    if r ≠ "" && lowerEndsWithPdf r then (true, st) else (false, st)

/-- The value of `paperUrlIsFileUrl`'s boolean, which depends only on the
configuration and the URL. -/
def isFileUrlB (cfg : Cfg) (url : String) : Bool :=
  if lowerEndsWithPdf url then true
  else cfg.realUrl url ≠ "" && lowerEndsWithPdf (cfg.realUrl url)

/-- The keyword filter of `process_one`: `True` when a keyword is configured
and `re.search` finds no match in the title. -/
def kwMiss (cfg : Cfg) (title : String) : Bool :=
  match cfg.keywordMatch with
  | none => false
  | some m => !m title

/-- `_Base.process_one` from src/core/venue.py.  The paper URL out of a DBLP
listing may be Python `None`; using it then raises `AttributeError`
(`paper_url.lower()`).  The per-paper sleep is not modelled (no observable
state). -/
def processOne (cfg : Cfg) (st : St) (title : String) (url? : Option String) :
    Except PyErr St :=
  if kwMiss cfg title then .ok st
  else
    match url? with
    | none => .error .attributeError
    | some url =>
      let (isFile, st1) := paperUrlIsFileUrl cfg st url
      if isFile then .ok (downloadTo cfg st1 url title "Paper")
      else
        let st2 := { st1 with evs := st1.evs ++ [Ev.fetchHtml url] }
        match cfg.html url with
        | none => .ok st2
        | some page =>
          let st3 := { st2 with evs := st2.evs ++ [Ev.extractFileUrl] }
          match cfg.fileUrl page with
          | none => .ok st3
          | some fUrl =>
            let st4 := downloadTo cfg st3 (getAbsoluteUrl url fUrl) title "Paper"
            let st5 := { st4 with evs := st4.evs ++ [Ev.extractSlidesUrl] }
            match cfg.slidesUrl page with
            | none => .ok st5
            | some sUrl =>
              if sUrl = "" then .ok st5
              else .ok (downloadTo cfg st5 (getAbsoluteUrl url sUrl) title "Slides")

/-- The file-set effect of `downloadTo`, which depends only on the existing
files (the event log does not influence it). -/
def downloadFiles (cfg : Cfg) (fs : List String) (fileUrl title sfx : String) :
    List String :=
  if fileUrl = "" then fs
  else
    let fn := coreGetFilename cfg.saveDir title fileUrl (some sfx)
    if fn ∈ fs then fs
    else if cfg.downloadOk fileUrl then fn :: fs else fs

/-- The file-set effect of `processOne` on a run that does not raise: the
same branch structure with only the files threaded. -/
def processFiles (cfg : Cfg) (fs : List String) (title : String)
    (url? : Option String) : List String :=
  if kwMiss cfg title then fs
  else
    match url? with
    | none => fs
    | some url =>
      if isFileUrlB cfg url then downloadFiles cfg fs url title "Paper"
      else
        match cfg.html url with
        | none => fs
        | some page =>
          match cfg.fileUrl page with
          | none => fs
          | some fUrl =>
            let fs1 := downloadFiles cfg fs (getAbsoluteUrl url fUrl) title "Paper"
            match cfg.slidesUrl page with
            | none => fs1
            | some sUrl =>
              if sUrl = "" then fs1
              else downloadFiles cfg fs1 (getAbsoluteUrl url sUrl) title "Slides"

/-! ## Venue strategies: listing URL builders (src/core/venue.py) -/

/-- `USENIX._get_url` from src/core/venue.py: the `atc` alias is rewritten to
`usenix` before the availability check. -/
def usenixAlias (n : String) : String := if n = "atc" then "usenix" else n

/-- The `available_confs` list of `USENIX._get_url`. -/
def usenixAvailable : List String := ["fast", "osdi", "usenix", "nsdi", "uss"]

/-- `USENIX._get_url` from src/core/venue.py. -/
def usenixGetUrl (venueName : String) (year : Int) : Option String :=
  let n := usenixAlias venueName
  if n ∈ usenixAvailable then
    let sfx := if n = "usenix" && 1999 ≤ year && year ≤ 2006 then "g" else ""
    some ("https://dblp.org/db/conf/" ++ n ++ "/" ++ n ++ toString year ++ sfx ++ ".html")
  else none

/-- The claim's URL formula for the USENIX family: alias `atc` to `usenix`,
then `https://dblp.org/db/conf/{name}/{name}{year}[suffix].html` with suffix
`g` exactly for usenix 1999-2006. -/
def usenixUrlSpec (key : String) (year : Int) : String :=
  let n := if key = "atc" then "usenix" else key
  let sfx := if n = "usenix" && 1999 ≤ year && year ≤ 2006 then "g" else ""
  "https://dblp.org/db/conf/" ++ n ++ "/" ++ n ++ toString year ++ sfx ++ ".html"

/-- `ECCV._get_url` from src/core/venue.py: a fixed URL, independent of the
year. -/
def eccvGetUrl (_year : Int) : Option String := some "https://www.ecva.net/papers.php"

/-- `ICML._get_paper_file_url` from src/core/venue.py: empty string before
2010, `a[href$=".pdf"]` selector for 2010-2023, `a[href^="/pdf"]` selector
afterwards.  The two selector queries are supplied by the oracle
`parseHref`. -/
def icmlGetPaperFileUrl (year : Int) (parseHref : String → String → Option String)
    (page : String) : Option String :=
  if year < 2010 then some ""
  else if 2010 ≤ year && year ≤ 2023 then parseHref page "a[href$=\".pdf\"]"
  else parseHref page "a[href^=\"/pdf\"]"

/-! ## ECCV DIY extraction (src/core/venue.py `ECCV._get_paper_title_and_url_list_by_diy`) -/

/-- Whether the previous character (if any) permits a `\b` word boundary. -/
def boundaryBefore : Option Char → Bool
  | none => true
  | some c => !isWordChar c

/-- Leftmost match of `re.search(r'\b(\d{4})\b', s)`, returned as the numeric
value of the four digits. -/
def fourDigitScan : Option Char → List Char → Option Nat
  | pre, d1 :: d2 :: d3 :: d4 :: rest =>
    if boundaryBefore pre && d1.isDigit && d2.isDigit && d3.isDigit && d4.isDigit &&
        (match rest with | [] => true | r :: _ => !isWordChar r) then
      some ((((d1.toNat - 48) * 10 + (d2.toNat - 48)) * 10 + (d3.toNat - 48)) * 10
        + (d4.toNat - 48))
    else fourDigitScan (some d1) (d2 :: d3 :: d4 :: rest)
  | pre, c :: rest =>
    match pre with
    | _ => fourDigitScan (some c) rest
  | _, [] => none

/-- The accordion-button loop of ECCV's DIY extraction: the index of the
first button whose stripped label contains a four-digit number equal to the
requested year. -/
def findYearIdxGo (year : Int) : Nat → List String → Option Nat
  | _, [] => none
  | i, s :: rest =>
    match fourDigitScan none (pyStrip s).data with
    | none => findYearIdxGo year (i + 1) rest
    | some y => if (y : Int) = year then some i else findYearIdxGo year (i + 1) rest

/-- An abstract parse of the ecva.net listing page: the texts of the
`button.accordion` matches and, per `#content` block, that block's
`.ptitle a` and `.ptitle + dd + dd > a` matches. -/
structure EcvaPage where
  accordionTexts : List String
  contentBlocks : List (List Tag × List Tag)

/-- `ECCV._get_paper_title_and_url_list_by_diy` from src/core/venue.py: years
before 2018 are rejected with an error log (`None`); otherwise the accordion
section for the year selects the block of title and URL tags.
`parser.select('#content')[year_idx]` raises `IndexError` when out of
range. -/
def eccvDiy (year : Int) (page : EcvaPage) :
    Except PyErr (Option (List Tag × List Tag)) :=
  if year < 2018 then .ok none
  else
    match findYearIdxGo year 0 page.accordionTexts with
    | none => .ok none
    | some idx =>
      match page.contentBlocks.get? idx with
      | none => .error .indexError
      | some blk => .ok (some blk)

/-! ## Listing Resolver (src/core/venue.py `_Base.get_paper_list`), with a
fetch counter -/

/-- The `'https://dblp.org/db/'` value of `self.dblp_url_prefix`. -/
def dblpDbStart : String := "https://dblp.org/db/"

/-- `_Base.get_paper_list` from src/core/venue.py, parameterized by the
strategy's URL, the HTML fetch oracle, and the two listing parsers; the
second component counts listing fetch attempts.  A falsy URL aborts before
any fetch; an empty or whitespace-only page yields no papers; a DBLP URL
uses the DBLP shape, anything else the DIY shape. -/
def getPaperList (url? : Option String) (fetchHtml : String → Option String)
    (dblpEntries : String → List DblpEntry)
    (diyRes : String → Except PyErr (Option (List Tag × List Tag))) :
    Except PyErr (List (String × Option String)) × Nat :=
  match url? with
  | none => (.ok [], 0)
  | some url =>
    if url = "" then (.ok [], 0)
    else
      match fetchHtml url with
      | none => (.ok [], 1)
      | some page =>
        if pyStrip page = "" then (.ok [], 1)
        else if sliceEq url.data dblpDbStart.data then
          (.ok (dblpPairs (dblpEntries page)), 1)
        else
          match diyRes page with
          | .error e => (.error e, 1)
          | .ok r => (.ok ((getPaperListByDiy url r).map (fun p => (p.1, some p.2))), 1)

/-! ## Venue registry and instance attributes (src/core/venue.py `_venue_dict`,
`_Base.__init__` / `_Conference` / `_Journal` / `_MultiConference`; src/cli.py
`main`) -/

/-- The publisher classes of src/core/venue.py. -/
inductive Publisher
  | usenixPub | ndssPub | aaaiPub | ijcaiPub | cvfPub | eccvPub
  | iclrPub | icmlPub | neuripsPub | aclPub | rssPub | pvldbPub | jmlrPub
  deriving DecidableEq, Repr

/-- `_venue_dict` from src/core/venue.py: venue key to publisher class. -/
def venueDict : List (String × Publisher) :=
  [("fast", .usenixPub), ("osdi", .usenixPub), ("atc", .usenixPub),
   ("nsdi", .usenixPub), ("uss", .usenixPub), ("ndss", .ndssPub),
   ("aaai", .aaaiPub), ("ijcai", .ijcaiPub),
   ("cvpr", .cvfPub), ("iccv", .cvfPub), ("eccv", .eccvPub),
   ("iclr", .iclrPub), ("icml", .icmlPub),
   ("neurips", .neuripsPub), ("nips", .neuripsPub),
   ("acl", .aclPub), ("emnlp", .aclPub), ("naacl", .aclPub),
   ("rss", .rssPub), ("pvldb", .pvldbPub), ("jmlr", .jmlrPub)]

/-- The instance attributes assigned by `_Base.__init__`
(src/core/venue.py lines 24-38). -/
def baseInitAttrs : List String :=
  ["save_dir", "sleep_time_per_paper", "keyword", "proxies", "url", "dblp_url_prefix"]

/-- Attributes after `_Conference.__init__` (adds `year`). -/
def conferenceInitAttrs : List String := "year" :: baseInitAttrs

/-- Attributes after `_MultiConference.__init__` (adds `venue_name`). -/
def multiConfInitAttrs : List String := "venue_name" :: conferenceInitAttrs

/-- Attributes after `_Journal.__init__` (adds `volume`). -/
def journalInitAttrs : List String := "volume" :: baseInitAttrs

/-- The attribute set a freshly constructed publisher instance carries, per
class hierarchy of src/core/venue.py. -/
def publisherInitAttrs : Publisher → List String
  | .usenixPub | .cvfPub | .aclPub => multiConfInitAttrs
  | .ndssPub | .aaaiPub | .ijcaiPub | .eccvPub | .iclrPub | .icmlPub
  | .neuripsPub | .rssPub => conferenceInitAttrs
  | .pvldbPub | .jmlrPub => journalInitAttrs

/-- Python attribute lookup: `AttributeError` when the instance does not
carry the attribute. -/
def pyGetAttr (attrs : List String) (n : String) : Except PyErr Unit :=
  if n ∈ attrs then .ok () else .error .attributeError

/-- The attribute read `publisher.max_thread_count` that src/cli.py line 112
performs to size the worker pool in parallel mode. -/
def cliPoolSizeAttrRead (p : Publisher) : Except PyErr Unit :=
  pyGetAttr (publisherInitAttrs p) "max_thread_count"

/-! ## Concrete environments used to evaluate the model on closed inputs -/

/-- A minimal deterministic environment: no keyword, all detail-page fetches
fail, no extraction results. -/
def plainCfg : Cfg :=
  { saveDir := "paper",
    keywordMatch := none,
    html := fun _ => none,
    realUrl := fun u => u,
    downloadOk := fun _ => true,
    fileUrl := fun _ => none,
    slidesUrl := fun _ => none }

/-- The environment of an ICML year-2005 run on one paper: the detail page
fetch succeeds, the strategy is `ICML._get_paper_file_url` for year 2005
(which returns the empty string without consulting the page), and ICML's
`_get_slides_file_url` is `pass`, i.e. always `None`. -/
def icml2005Cfg : Cfg :=
  { saveDir := "paper",
    keywordMatch := none,
    html := fun _ => some "PAGE",
    realUrl := fun u => u,
    downloadOk := fun _ => true,
    fileUrl := icmlGetPaperFileUrl 2005 (fun _ _ => none),
    slidesUrl := fun _ => none }

/-! ## Helper lemmas -/

theorem subRunsGo_nil_rep (p : Char → Bool) :
    ∀ (l : List Char) (b : Bool), subRunsGo p [] b l = l.filter (fun c => !p c)
  | [], _ => rfl
  | c :: rest, b => by
    by_cases hp : p c
    · simp [subRunsGo, hp, subRunsGo_nil_rep p rest true, List.filter_cons]
    · simp [subRunsGo, hp, subRunsGo_nil_rep p rest false, List.filter_cons]

theorem dropWhile_shape (p : Char → Bool) (l : List Char) :
    l.dropWhile p = [] ∨ ∃ a t, l.dropWhile p = a :: t ∧ p a = false := by
  induction l with
  | nil => exact Or.inl rfl
  | cons a l ih =>
    by_cases h : p a
    · simpa [List.dropWhile_cons, h] using ih
    · exact Or.inr ⟨a, l, by simp [List.dropWhile_cons, h], by simpa using h⟩

theorem dropWhile_eq_self (p : Char → Bool) {l : List Char}
    (h : l = [] ∨ ∃ a t, l = a :: t ∧ p a = false) : l.dropWhile p = l := by
  rcases h with h | ⟨a, t, h1, h2⟩
  · simp [h]
  · simp [h1, List.dropWhile_cons, h2]

theorem stripChars_idem (l : List Char) : stripChars (stripChars l) = stripChars l := by
  unfold stripChars
  set p := Char.isWhitespace with hp
  set f := l.dropWhile p with hf
  set g := f.reverse.dropWhile p with hg
  have hsplit : f.reverse.takeWhile p ++ g = f.reverse :=
    List.takeWhile_append_dropWhile p f.reverse
  have hf2 : g.reverse ++ (f.reverse.takeWhile p).reverse = f := by
    have h := congrArg List.reverse hsplit
    simpa [List.reverse_append] using h
  have hfront : g.reverse.dropWhile p = g.reverse := by
    rcases hrev : g.reverse with _ | ⟨a, t⟩
    · rfl
    · rcases dropWhile_shape p l with h0 | ⟨a', t', h1, h2⟩
      · have hfnil : f = [] := by rw [hf]; exact h0
        have hgnil : g = [] := by rw [hg, hfnil]; rfl
        rw [hgnil] at hrev
        cases hrev
      · have hfa : f = a' :: t' := by rw [hf]; exact h1
        have haa : a = a' := by
          have h3 := hf2
          rw [hrev, hfa] at h3
          have h4 : a :: (t ++ (List.takeWhile p (a' :: t').reverse).reverse) = a' :: t' := by
            simpa using h3
          injection h4 with h5 h6
        subst haa
        rw [List.dropWhile_cons, if_neg (by simp [h2])]
  have hgself : g.dropWhile p = g :=
    dropWhile_eq_self p (by simpa [← hg] using dropWhile_shape p f.reverse)
  rw [hfront, List.reverse_reverse, hgself]

theorem pyStrip_idem (s : String) : pyStrip (pyStrip s) = pyStrip s := by
  show String.mk (stripChars (stripChars s.data)) = String.mk (stripChars s.data)
  rw [stripChars_idem]

theorem findCharIdx_cons (a c : Char) (t : List Char) :
    findCharIdx (a :: t) c =
      if a = c then 0 else (if findCharIdx t c = -1 then -1 else findCharIdx t c + 1) := rfl

theorem rfindCharIdx_cons (a c : Char) (t : List Char) :
    rfindCharIdx (a :: t) c =
      if rfindCharIdx t c ≠ -1 then rfindCharIdx t c + 1
      else if a = c then 0 else -1 := rfl

theorem findCharIdx_not_mem {c : Char} {l : List Char} (h : c ∉ l) :
    findCharIdx l c = -1 := by
  induction l with
  | nil => rfl
  | cons a t ih =>
    simp only [List.mem_cons, not_or] at h
    have h1 : ¬(a = c) := fun e => h.1 e.symm
    rw [findCharIdx_cons, if_neg h1, ih h.2, if_pos rfl]

theorem findCharIdx_append_cons {c : Char} (s t : List Char) (h : c ∉ s) :
    findCharIdx (s ++ c :: t) c = s.length := by
  induction s with
  | nil => simp [findCharIdx_cons]
  | cons a s ih =>
    simp only [List.mem_cons, not_or] at h
    have h1 : ¬(a = c) := fun e => h.1 e.symm
    have h2 := ih h.2
    rw [List.cons_append, findCharIdx_cons, if_neg h1, h2,
      if_neg (by omega : ¬((s.length : Int) = -1))]
    simp

theorem rfindCharIdx_not_mem {c : Char} {l : List Char} (h : c ∉ l) :
    rfindCharIdx l c = -1 := by
  induction l with
  | nil => rfl
  | cons a t ih =>
    simp only [List.mem_cons, not_or] at h
    have h1 : ¬(a = c) := fun e => h.1 e.symm
    rw [rfindCharIdx_cons, ih h.2, if_neg (by simp), if_neg h1]

theorem rfindCharIdx_append_cons {c : Char} (s t : List Char) (h : c ∉ t) :
    rfindCharIdx (s ++ c :: t) c = s.length := by
  induction s with
  | nil =>
    rw [List.nil_append, rfindCharIdx_cons, rfindCharIdx_not_mem h,
      if_neg (by simp), if_pos rfl]
    rfl
  | cons a s ih =>
    rw [List.cons_append, rfindCharIdx_cons, ih,
      if_pos (by omega : ¬((s.length : Int) = -1))]
    simp

/-! ## C2 -/

/-- C2: in parallel mode src/cli.py sizes the worker pool by reading
`publisher.max_thread_count`, but no class of src/core/venue.py ever assigns
that attribute, so the read raises `AttributeError` for every venue
publisher: the claimed "cap attribute defined on every venue publisher
object" does not exist and the concurrent pipeline setup fails. -/
theorem max_thread_count_attr_missing :
    ∀ p : Publisher, cliPoolSizeAttrRead p = .error .attributeError := by
  intro p
  cases p <;> rfl

/-! ## C3 -/

/-- C3: for every USENIX-family venue key (`fast`, `osdi`, `atc`, `nsdi`,
`uss`) and every year, `USENIX._get_url` builds
`https://dblp.org/db/conf/{name}/{name}{year}[suffix].html` with `atc`
aliased to `usenix` and suffix `g` exactly for usenix 1999-2006; any other
string (except the internal aliased name `usenix`, which is not a venue key
of the registry) yields `None`; and the registry keys routed to the USENIX
publisher are exactly those five. -/
theorem usenix_url_spec :
    (∀ (year : Int) (key : String), key ∈ ["fast", "osdi", "atc", "nsdi", "uss"] →
      usenixGetUrl key year = some (usenixUrlSpec key year))
    ∧ (∀ (year : Int) (key : String), key ∉ ["fast", "osdi", "atc", "nsdi", "uss"] →
      key ≠ "usenix" → usenixGetUrl key year = none)
    ∧ (venueDict.filter (fun kv => kv.2 = Publisher.usenixPub)).map Prod.fst =
        ["fast", "osdi", "atc", "nsdi", "uss"]
    ∧ "usenix" ∉ venueDict.map Prod.fst := by
  refine ⟨?_, ?_, by decide, by decide⟩
  · intro year key hk
    fin_cases hk <;>
      simp [usenixGetUrl, usenixAlias, usenixAvailable, usenixUrlSpec]
  · intro year key hk hu
    simp only [List.mem_cons, not_or, List.not_mem_nil] at hk
    obtain ⟨h1, h2, h3, h4, h5, -⟩ := hk
    have ha : usenixAlias key = key := by simp [usenixAlias, h3]
    rw [usenixGetUrl, ha]
    rw [if_neg (by simp [usenixAvailable, h1, h2, h4, h5, hu])]

/-- Witness for C3 at key `atc`, year 2003: the alias and the `g` suffix are
both exercised. -/
theorem usenix_url_spec_witness :
    usenixGetUrl "atc" 2003 = some "https://dblp.org/db/conf/usenix/usenix2003g.html" := by
  have h := usenix_url_spec.1 2003 "atc" (by decide)
  simpa [usenixUrlSpec] using h

/-! ## C7 -/

theorem getText_eq_some {t : Tag} {title : String} (h : getText t = some title) :
    title = pyStrip t.text := by
  unfold getText at h
  split at h
  · cases h
  · injection h with h'
    exact h'.symm

theorem diyPairs_eq_filterMap (baseUrl : String) (l : List (Tag × Tag)) :
    diyPairs baseUrl l = l.filterMap (diyPairSpec baseUrl) := by
  induction l with
  | nil => rfl
  | cons tu rest ih =>
    obtain ⟨tt, ut⟩ := tu
    cases hgt : getText tt with
    | none => simp [diyPairs, diyPairSpec, hgt, List.filterMap_cons, ih]
    | some title =>
      cases hgh : getHref ut with
      | none => simp [diyPairs, diyPairSpec, hgt, hgh, List.filterMap_cons, ih]
      | some link =>
        by_cases ht : title = ""
        · simp [diyPairs, diyPairSpec, hgt, hgh, ht, List.filterMap_cons, ih]
        · by_cases hl : link = ""
          · simp [diyPairs, diyPairSpec, hgt, hgh, ht, hl, List.filterMap_cons, ih]
          · simp [diyPairs, diyPairSpec, hgt, hgh, ht, hl, List.filterMap_cons, ih]

/-- C7: in DIY listing resolution, a length mismatch between the title and
URL selector match lists aborts the venue with an empty result; otherwise
the output is exactly the position-wise pairs surviving the title/href
guards, in listing order, each carrying the trimmed title and the
absolutized URL; and every produced title is non-empty and trimmed. -/
theorem diy_resolution :
    (∀ (baseUrl : String) (titles urls : List Tag),
      titles.length ≠ urls.length →
        getPaperListByDiy baseUrl (some (titles, urls)) = [])
    ∧ (∀ (baseUrl : String) (titles urls : List Tag),
      titles.length = urls.length →
        getPaperListByDiy baseUrl (some (titles, urls)) =
          (titles.zip urls).filterMap (diyPairSpec baseUrl))
    ∧ (∀ (baseUrl : String) (res : Option (List Tag × List Tag)) (p : String × String),
        p ∈ getPaperListByDiy baseUrl res → p.1 ≠ "" ∧ pyStrip p.1 = p.1) := by
  refine ⟨?_, ?_, ?_⟩
  · intro baseUrl titles urls h
    simp [getPaperListByDiy, h]
  · intro baseUrl titles urls h
    simp [getPaperListByDiy, h, diyPairs_eq_filterMap]
  · intro baseUrl res p hp
    match res with
    | none => cases hp
    | some (titles, urls) =>
      rw [getPaperListByDiy] at hp
      split at hp
      · cases hp
      · rw [diyPairs_eq_filterMap] at hp
        obtain ⟨⟨tt, ut⟩, -, hspec⟩ := List.mem_filterMap.mp hp
        cases hgt : getText tt with
        | none => simp [diyPairSpec, hgt] at hspec
        | some title =>
          cases hgh : getHref ut with
          | none => simp [diyPairSpec, hgt, hgh] at hspec
          | some link =>
            simp only [diyPairSpec, hgt, hgh] at hspec
            split at hspec
            · next hcond =>
              injection hspec with hspec'
              have hpt : p.1 = title := by rw [← hspec']
              have htt := getText_eq_some hgt
              refine ⟨by rw [hpt]; exact hcond.1, ?_⟩
              rw [hpt, htt, pyStrip_idem]
            · cases hspec

/-- Witness for C7 on a one-entry listing shaped like a JMLR volume page. -/
theorem diy_resolution_witness :
    getPaperListByDiy "https://jmlr.org/papers/v23/"
        (some ([Tag.mk "dt" " Deep Learning " none], [Tag.mk "a" "" (some "paper1.pdf")])) =
      ([Tag.mk "dt" " Deep Learning " none].zip [Tag.mk "a" "" (some "paper1.pdf")]).filterMap
        (diyPairSpec "https://jmlr.org/papers/v23/") :=
  diy_resolution.2.1 "https://jmlr.org/papers/v23/" _ _ rfl

/-! ## C10 -/

/-- C10: every pair out of DBLP listing resolution carries a non-empty,
trimmed title, but the URL side is unguarded: an entry with a title and no
drop-down link produces the pair `(title, None)`, and the Paper Processor
applied to such a pair raises (`paper_url.lower()` on `None`) instead of
skipping the paper. -/
theorem dblp_unguarded_url :
    (∀ (entries : List DblpEntry) (p : String × Option String),
      p ∈ dblpPairs entries → p.1 ≠ "" ∧ pyStrip p.1 = p.1)
    ∧ ("A Paper Title", (none : Option String)) ∈
        dblpPairs [DblpEntry.mk [Tag.mk "span" "A Paper Title" none] []]
    ∧ processOne plainCfg (St.mk [] []) "A Paper Title" none = .error .attributeError := by
  refine ⟨?_, by decide, rfl⟩
  intro entries p hp
  induction entries with
  | nil => cases hp
  | cons e rest ih =>
    cases hgt : getTextFirst e.titleTags with
    | none =>
      simp only [dblpPairs, hgt] at hp
      exact ih hp
    | some title =>
      simp only [dblpPairs, hgt] at hp
      by_cases ht : title = ""
      · rw [if_pos ht] at hp
        exact ih hp
      · rw [if_neg ht] at hp
        rcases List.mem_cons.mp hp with he | hrest
        · subst he
          cases htags : e.titleTags with
          | nil => rw [htags] at hgt; cases hgt
          | cons t0 ts =>
            rw [htags] at hgt
            have hg2 : getText t0 = some title := hgt
            have htt := getText_eq_some hg2
            exact ⟨ht, by rw [htt, pyStrip_idem]⟩
        · exact ih hrest

/-- Witness for C10's guard on titles, at a one-entry listing that does have
a drop-down link. -/
theorem dblp_unguarded_url_witness :
    ("Q", (some "u.html" : Option String)).1 ≠ "" ∧
      pyStrip ("Q", (some "u.html" : Option String)).1 =
        ("Q", (some "u.html" : Option String)).1 :=
  dblp_unguarded_url.1
    [DblpEntry.mk [Tag.mk "cite" " Q " none] [Tag.mk "a" "u.html" (some "u.html")]]
    ("Q", some "u.html") (by decide)

/-! ## C4 -/

theorem downloadTo_files (cfg : Cfg) (st : St) (u t sfx : String) :
    (downloadTo cfg st u t sfx).files = downloadFiles cfg st.files u t sfx := by
  by_cases hu : u = ""
  · simp [downloadTo, downloadFiles, hu]
  · by_cases hm : coreGetFilename cfg.saveDir t u (some sfx) ∈ st.files
    · simp [downloadTo, downloadFiles, hu, hm]
    · simp [downloadTo, downloadFiles, hu, hm]

theorem paperUrlIsFileUrl_fst (cfg : Cfg) (st : St) (url : String) :
    (paperUrlIsFileUrl cfg st url).1 = isFileUrlB cfg url := by
  unfold paperUrlIsFileUrl isFileUrlB
  by_cases h1 : lowerEndsWithPdf url
  · simp [h1]
  · by_cases h2 : cfg.realUrl url = ""
    · simp [h1, h2, apply_ite Prod.fst]
    · by_cases h3 : lowerEndsWithPdf (cfg.realUrl url)
      · simp [h1, h2, h3, apply_ite Prod.fst]
      · simp [h1, h2, h3, apply_ite Prod.fst]

theorem paperUrlIsFileUrl_snd_files (cfg : Cfg) (st : St) (url : String) :
    (paperUrlIsFileUrl cfg st url).2.files = st.files := by
  unfold paperUrlIsFileUrl
  by_cases h1 : lowerEndsWithPdf url
  · simp [h1]
  · simp [h1, apply_ite Prod.snd, apply_ite St.files]

theorem processOne_ok_files (cfg : Cfg) (st st' : St) (title : String)
    (url? : Option String) (h : processOne cfg st title url? = .ok st') :
    st'.files = processFiles cfg st.files title url? := by
  cases hkw : kwMiss cfg title with
  | true =>
    simp only [processOne, hkw, if_true, Except.ok.injEq] at h
    simp only [processFiles, hkw, if_true]
    rw [← h]
  | false =>
    cases url? with
    | none => simp [processOne, hkw] at h
    | some url =>
      cases hif : isFileUrlB cfg url with
      | true =>
        simp only [processOne, processFiles, hkw, Bool.false_eq_true, if_false,
          paperUrlIsFileUrl_fst, hif, if_true, Except.ok.injEq] at h ⊢
        rw [← h, downloadTo_files, paperUrlIsFileUrl_snd_files]
      | false =>
        cases hhtml : cfg.html url with
        | none =>
          simp only [processOne, processFiles, hkw, Bool.false_eq_true, if_false,
            paperUrlIsFileUrl_fst, hif, hhtml, Except.ok.injEq] at h ⊢
          rw [← h]
          exact paperUrlIsFileUrl_snd_files cfg st url
        | some page =>
          cases hfu : cfg.fileUrl page with
          | none =>
            simp only [processOne, processFiles, hkw, Bool.false_eq_true, if_false,
              paperUrlIsFileUrl_fst, hif, hhtml, hfu, Except.ok.injEq] at h ⊢
            rw [← h]
            exact paperUrlIsFileUrl_snd_files cfg st url
          | some fUrl =>
            cases hsl : cfg.slidesUrl page with
            | none =>
              simp only [processOne, processFiles, hkw, Bool.false_eq_true, if_false,
                paperUrlIsFileUrl_fst, hif, hhtml, hfu, hsl, Except.ok.injEq] at h ⊢
              rw [← h]
              simp only [downloadTo_files, paperUrlIsFileUrl_snd_files]
            | some sUrl =>
              by_cases hs : sUrl = ""
              · simp only [processOne, processFiles, hkw, Bool.false_eq_true, if_false,
                  paperUrlIsFileUrl_fst, hif, hhtml, hfu, hsl, hs, if_true,
                  Except.ok.injEq] at h ⊢
                rw [← h]
                simp only [downloadTo_files, paperUrlIsFileUrl_snd_files]
              · simp only [processOne, processFiles, hkw, Bool.false_eq_true, if_false,
                  paperUrlIsFileUrl_fst, hif, hhtml, hfu, hsl, hs, if_false,
                  Except.ok.injEq] at h ⊢
                rw [← h]
                simp only [downloadTo_files, paperUrlIsFileUrl_snd_files]

theorem downloadFiles_subset (cfg : Cfg) (fs : List String) (u t sfx : String) :
    fs ⊆ downloadFiles cfg fs u t sfx := by
  unfold downloadFiles
  by_cases hu : u = ""
  · simp [hu]
  · by_cases hm : coreGetFilename cfg.saveDir t u (some sfx) ∈ fs
    · simp [hu, hm]
    · by_cases hok : cfg.downloadOk u
      · simp only [hu, if_false, hm, hok, if_true]
        exact fun a ha => List.mem_cons_of_mem _ ha
      · simp [hu, hm, hok]

theorem downloadFiles_superset_fixed (cfg : Cfg) (fs fs2 : List String) (u t sfx : String)
    (h : downloadFiles cfg fs u t sfx ⊆ fs2) :
    downloadFiles cfg fs2 u t sfx = fs2 := by
  by_cases hu : u = ""
  · simp [downloadFiles, hu]
  · by_cases hm2 : coreGetFilename cfg.saveDir t u (some sfx) ∈ fs2
    · simp [downloadFiles, hu, hm2]
    · by_cases hok : cfg.downloadOk u
      · exfalso
        apply hm2
        apply h
        unfold downloadFiles
        by_cases hm : coreGetFilename cfg.saveDir t u (some sfx) ∈ fs
        · simp [hu, hm]
        · simp [hu, hm, hok]
      · simp [downloadFiles, hu, hm2, hok]

theorem processFiles_idem (cfg : Cfg) (fs : List String) (title : String)
    (url? : Option String) :
    processFiles cfg (processFiles cfg fs title url?) title url? =
      processFiles cfg fs title url? := by
  cases hkw : kwMiss cfg title with
  | true => simp [processFiles, hkw]
  | false =>
    cases url? with
    | none => simp [processFiles, hkw]
    | some url =>
      cases hif : isFileUrlB cfg url with
      | true =>
        simp only [processFiles, hkw, Bool.false_eq_true, if_false, hif, if_true]
        exact downloadFiles_superset_fixed cfg fs _ url title "Paper" (fun a ha => ha)
      | false =>
        cases hhtml : cfg.html url with
        | none => simp [processFiles, hkw, hif, hhtml]
        | some page =>
          cases hfu : cfg.fileUrl page with
          | none => simp [processFiles, hkw, hif, hhtml, hfu]
          | some fUrl =>
            cases hsl : cfg.slidesUrl page with
            | none =>
              simp only [processFiles, hkw, Bool.false_eq_true, if_false, hif, hhtml, hfu, hsl]
              exact downloadFiles_superset_fixed cfg fs _ _ title "Paper" (fun a ha => ha)
            | some sUrl =>
              by_cases hs : sUrl = ""
              · simp only [processFiles, hkw, Bool.false_eq_true, if_false, hif, hhtml,
                  hfu, hsl, hs, if_true]
                exact downloadFiles_superset_fixed cfg fs _ _ title "Paper" (fun a ha => ha)
              · simp only [processFiles, hkw, Bool.false_eq_true, if_false, hif, hhtml,
                  hfu, hsl, hs, if_false]
                rw [downloadFiles_superset_fixed cfg fs
                  (downloadFiles cfg (downloadFiles cfg fs (getAbsoluteUrl url fUrl) title "Paper")
                    (getAbsoluteUrl url sUrl) title "Slides")
                  (getAbsoluteUrl url fUrl) title "Paper"
                  (downloadFiles_subset cfg
                    (downloadFiles cfg fs (getAbsoluteUrl url fUrl) title "Paper")
                    (getAbsoluteUrl url sUrl) title "Slides")]
                exact downloadFiles_superset_fixed cfg
                  (downloadFiles cfg fs (getAbsoluteUrl url fUrl) title "Paper") _
                  (getAbsoluteUrl url sUrl) title "Slides" (fun a ha => ha)

/-- C4: a download is skipped outright when the target local path already
exists (the state, event log included, is unchanged: nothing is re-fetched
or overwritten), and running the Paper Processor a second time on the same
entry, environment and save directory leaves the file set exactly as after
the first run. -/
theorem download_skip_idempotent :
    (∀ (cfg : Cfg) (st : St) (u t sfx : String), u ≠ "" →
      coreGetFilename cfg.saveDir t u (some sfx) ∈ st.files →
        downloadTo cfg st u t sfx = st)
    ∧ (∀ (cfg : Cfg) (st : St) (title : String) (url? : Option String) (st1 st2 : St),
      processOne cfg st title url? = .ok st1 →
      processOne cfg st1 title url? = .ok st2 →
        st2.files = st1.files) := by
  constructor
  · intro cfg st u t sfx hu hm
    simp [downloadTo, hu, hm]
  · intro cfg st title url? st1 st2 h1 h2
    have e1 := processOne_ok_files cfg st st1 title url? h1
    have e2 := processOne_ok_files cfg st1 st2 title url? h2
    rw [e2, e1, processFiles_idem, ← e1]

/-- Witness for C4: a direct-PDF entry processed twice; the second run finds
the file present and changes nothing. -/
theorem download_skip_idempotent_witness :
    (St.mk ["paper/T-Paper.pdf"] [Ev.downloadFile "http://x/a.pdf" "paper/T-Paper.pdf"]).files =
      (St.mk ["paper/T-Paper.pdf"] [Ev.downloadFile "http://x/a.pdf" "paper/T-Paper.pdf"]).files :=
  download_skip_idempotent.2 plainCfg (St.mk [] []) "T" (some "http://x/a.pdf") _ _ rfl rfl

/-! ## C8 -/

theorem isFileUrlB_false_pdf {cfg : Cfg} {url : String}
    (h : isFileUrlB cfg url = false) : lowerEndsWithPdf url = false := by
  cases hp : lowerEndsWithPdf url
  · rfl
  · rw [isFileUrlB, hp, if_pos rfl] at h
    cases h

theorem paperUrlIsFileUrl_snd_of_not_pdf (cfg : Cfg) (st : St) (url : String)
    (h : lowerEndsWithPdf url = false) :
    (paperUrlIsFileUrl cfg st url).2 = { st with evs := st.evs ++ [Ev.headRequest url] } := by
  unfold paperUrlIsFileUrl
  simp [h, apply_ite Prod.snd]

theorem getAbsoluteUrl_empty (u : String) : getAbsoluteUrl u "" = "" := rfl

theorem downloadTo_empty (cfg : Cfg) (st : St) (t sfx : String) :
    downloadTo cfg st "" t sfx = st := by
  simp [downloadTo]

/-- C8 counterexample: for ICML year 2005 the file-URL extraction returns
the empty string, which is not Python `None`, so `process_one` does not
abort there: slides extraction still runs (the event appears in the log),
contradicting the claim that for ICML pre-2010 "no slides extraction
occurs". No download is attempted and the file set stays empty. -/
theorem icml_no_file_counterexample :
    processOne icml2005Cfg (St.mk [] []) "T" (some "https://icml.cc/p/5") =
      .ok (St.mk [] [Ev.headRequest "https://icml.cc/p/5",
        Ev.fetchHtml "https://icml.cc/p/5", Ev.extractFileUrl, Ev.extractSlidesUrl])
    ∧ Ev.extractSlidesUrl ∈ [Ev.headRequest "https://icml.cc/p/5",
        Ev.fetchHtml "https://icml.cc/p/5", Ev.extractFileUrl, Ev.extractSlidesUrl] :=
  ⟨rfl, by decide⟩

/-- C8 amended: when the strategy's file-URL extraction returns Python
`None`, the paper is aborted with no download attempt and no slides
extraction; the ICML pre-2010 strategy instead reports the empty string,
which passes the `is None` check, so the (empty-URL) paper download is
invoked and performs nothing and slides extraction still runs — in both
cases the file set is unchanged and no download event occurs. -/
theorem process_abort_on_absent_file_url :
    (∀ (cfg : Cfg) (st : St) (title url page : String),
      kwMiss cfg title = false → isFileUrlB cfg url = false →
      cfg.html url = some page → cfg.fileUrl page = none →
      processOne cfg st title (some url) =
        .ok (St.mk st.files
          (st.evs ++ [Ev.headRequest url, Ev.fetchHtml url, Ev.extractFileUrl])))
    ∧ (∀ (cfg : Cfg) (st : St) (title url page : String),
      kwMiss cfg title = false → isFileUrlB cfg url = false →
      cfg.html url = some page → cfg.fileUrl page = some "" →
      cfg.slidesUrl page = none →
      processOne cfg st title (some url) =
        .ok (St.mk st.files
          (st.evs ++ [Ev.headRequest url, Ev.fetchHtml url, Ev.extractFileUrl,
            Ev.extractSlidesUrl])))
    ∧ (∀ (year : Int) (parseHref : String → String → Option String) (page : String),
      year < 2010 → icmlGetPaperFileUrl year parseHref page = some "") := by
  refine ⟨?_, ?_, ?_⟩
  · intro cfg st title url page hkw hfile hhtml hfu
    have hpdf := isFileUrlB_false_pdf hfile
    simp only [processOne, hkw, Bool.false_eq_true, if_false, paperUrlIsFileUrl_fst,
      hfile, paperUrlIsFileUrl_snd_of_not_pdf cfg st url hpdf, hhtml, hfu,
      Except.ok.injEq]
    simp
  · intro cfg st title url page hkw hfile hhtml hfu hsl
    have hpdf := isFileUrlB_false_pdf hfile
    simp only [processOne, hkw, Bool.false_eq_true, if_false, paperUrlIsFileUrl_fst,
      hfile, paperUrlIsFileUrl_snd_of_not_pdf cfg st url hpdf, hhtml, hfu, hsl,
      getAbsoluteUrl_empty, downloadTo_empty, Except.ok.injEq]
    simp
  · intro year parseHref page hy
    simp [icmlGetPaperFileUrl, hy]

/-- Witness for C8's amended behaviour at the concrete ICML-2005
environment. -/
theorem process_abort_on_absent_file_url_witness :
    processOne icml2005Cfg (St.mk [] []) "T2" (some "https://icml.cc/p/7") =
      .ok (St.mk [] ([] ++ [Ev.headRequest "https://icml.cc/p/7",
        Ev.fetchHtml "https://icml.cc/p/7", Ev.extractFileUrl,
        Ev.extractSlidesUrl])) :=
  process_abort_on_absent_file_url.2.1 icml2005Cfg (St.mk [] []) "T2"
    "https://icml.cc/p/7" "PAGE" rfl rfl rfl rfl rfl

/-! ## C1 -/

/-- C1 counterexample: for eccv year 2015 the strategy does not return an
absent listing URL — `ECCV._get_url` returns the fixed ecva.net URL for
every year — and the run performs one listing fetch (not zero) before
ending with zero papers; the year check only happens inside the DIY
extraction, after the fetch. -/
theorem eccv2015_counterexample :
    eccvGetUrl 2015 = some "https://www.ecva.net/papers.php"
    ∧ (getPaperList (eccvGetUrl 2015) (fun _ => some "<html>page</html>")
        (fun _ => []) (fun page => eccvDiy 2015 ((fun _ => EcvaPage.mk [] []) page))).2 = 1
    ∧ (1 : Nat) ≠ 0 :=
  ⟨rfl, rfl, by decide⟩

/-- C1 amended: for eccv with any year below 2018 the listing URL is the
fixed ecva.net page (never absent); exactly one listing fetch is attempted,
and the run ends with zero papers because the DIY extraction rejects the
unsupported year with an error log — no paper detail fetch or download can
follow. -/
theorem eccv_unsupported_year_run (year : Int) (hy : year < 2018)
    (fetchHtml : String → Option String) (parse : String → EcvaPage)
    (dblpEntries : String → List DblpEntry) :
    getPaperList (eccvGetUrl year) fetchHtml dblpEntries
      (fun page => eccvDiy year (parse page)) = (.ok [], 1) := by
  have hurl : eccvGetUrl year = some "https://www.ecva.net/papers.php" := rfl
  rw [hurl]
  simp only [getPaperList]
  rw [if_neg (by decide : ¬(("https://www.ecva.net/papers.php" : String) = ""))]
  cases hf : fetchHtml "https://www.ecva.net/papers.php" with
  | none => rfl
  | some page =>
    have hnd : sliceEq "https://www.ecva.net/papers.php".data dblpDbStart.data = false := by
      decide
    by_cases hs : pyStrip page = ""
    · simp [hs]
    · simp [hs, hnd, eccvDiy, hy, getPaperListByDiy]

/-- Witness for C1's amended run at year 2015 with concrete oracles. -/
theorem eccv_unsupported_year_run_witness :
    getPaperList (eccvGetUrl 2015) (fun _ => some "<p>x</p>") (fun _ => [])
      (fun page => eccvDiy 2015 ((fun _ => EcvaPage.mk ["ECCV 2020"] []) page)) =
      (.ok [], 1) :=
  eccv_unsupported_year_run 2015 (by decide) _ _ _

/-! ## C6 -/

theorem sliceEq_append_self (p t : List Char) : sliceEq (p ++ t) p = true := by
  simp [sliceEq, List.take_left]

theorem sliceEq_http_not_https (x : List Char) :
    sliceEq ("http://".data ++ x) "https://".data = false := by
  unfold sliceEq
  rw [show ("https://".data).length = 8 from rfl,
    show ("http://".data ++ x).take 8 = 'h' :: 't' :: 't' :: 'p' :: ':' :: '/' :: '/' :: x.take 1
      from rfl]
  exact decide_eq_false (by intro h; simp at h)

theorem sliceEq_slash_not_https (t : List Char) :
    sliceEq ('/' :: t) "https://".data = false := by
  unfold sliceEq
  rw [show ("https://".data).length = 8 from rfl,
    show ('/' :: t).take 8 = '/' :: t.take 7 from rfl]
  exact decide_eq_false (by intro h; simp at h)

theorem sliceEq_slash_not_http (t : List Char) :
    sliceEq ('/' :: t) "http://".data = false := by
  unfold sliceEq
  rw [show ("http://".data).length = 7 from rfl,
    show ('/' :: t).take 7 = '/' :: t.take 6 from rfl]
  exact decide_eq_false (by intro h; simp at h)

theorem take_left_of_append (l1 l2 : List Char) (n : Nat) (h : n = l1.length) :
    (l1 ++ l2).take n = l1 := by
  rw [h]
  exact List.take_left l1 l2

theorem getRootUrl_https (host rest : String) (hh : '/' ∉ host.data) :
    getRootUrl ("https://" ++ host ++ "/" ++ rest) = "https://" ++ host := by
  have hdata : ("https://" ++ host ++ "/" ++ rest).data =
      "https://".data ++ (host.data ++ '/' :: rest.data) := by
    simp [String.data_append]
  have hdrop : ("https://".data ++ (host.data ++ '/' :: rest.data)).drop 8 =
      host.data ++ '/' :: rest.data := by
    simpa using List.drop_left "https://".data (host.data ++ '/' :: rest.data)
  unfold getRootUrl
  apply String.ext
  show (("https://" ++ host ++ "/" ++ rest).data.take _) = _
  rw [hdata, sliceEq_append_self, if_pos rfl, hdrop,
    findCharIdx_append_cons host.data rest.data hh,
    show ((8 : Int) + (host.data.length : Int)).toNat = 8 + host.data.length from by omega,
    show "https://".data ++ (host.data ++ '/' :: rest.data) =
      ("https://".data ++ host.data) ++ ('/' :: rest.data) from by rw [List.append_assoc],
    take_left_of_append _ _ _ (by rw [List.length_append]; rfl),
    String.data_append]

theorem getRootUrl_http (host rest : String) (hh : '/' ∉ host.data) :
    getRootUrl ("http://" ++ host ++ "/" ++ rest) = "http://" ++ host := by
  have hdata : ("http://" ++ host ++ "/" ++ rest).data =
      "http://".data ++ (host.data ++ '/' :: rest.data) := by
    simp [String.data_append]
  have hdrop : ("http://".data ++ (host.data ++ '/' :: rest.data)).drop 7 =
      host.data ++ '/' :: rest.data := by
    simpa using List.drop_left "http://".data (host.data ++ '/' :: rest.data)
  unfold getRootUrl
  apply String.ext
  show (("http://" ++ host ++ "/" ++ rest).data.take _) = _
  rw [hdata, sliceEq_http_not_https, if_neg (by simp), sliceEq_append_self, if_pos rfl,
    hdrop, findCharIdx_append_cons host.data rest.data hh,
    show ((7 : Int) + (host.data.length : Int)).toNat = 7 + host.data.length from by omega,
    show "http://".data ++ (host.data ++ '/' :: rest.data) =
      ("http://".data ++ host.data) ++ ('/' :: rest.data) from by rw [List.append_assoc],
    take_left_of_append _ _ _ (by rw [List.length_append]; rfl),
    String.data_append]

theorem getPrefixUrl_https (mid seg : String) (hs : '/' ∉ seg.data) :
    getPrefixUrl ("https://" ++ mid ++ "/" ++ seg) = "https://" ++ mid := by
  have hdata : ("https://" ++ mid ++ "/" ++ seg).data =
      "https://".data ++ (mid.data ++ '/' :: seg.data) := by
    simp [String.data_append]
  have hdrop : ("https://".data ++ (mid.data ++ '/' :: seg.data)).drop 8 =
      mid.data ++ '/' :: seg.data := by
    simpa using List.drop_left "https://".data (mid.data ++ '/' :: seg.data)
  unfold getPrefixUrl
  apply String.ext
  show (("https://" ++ mid ++ "/" ++ seg).data.take _) = _
  rw [hdata, sliceEq_append_self, if_pos rfl, hdrop,
    rfindCharIdx_append_cons mid.data seg.data hs,
    show ((8 : Int) + (mid.data.length : Int)).toNat = 8 + mid.data.length from by omega,
    show "https://".data ++ (mid.data ++ '/' :: seg.data) =
      ("https://".data ++ mid.data) ++ ('/' :: seg.data) from by rw [List.append_assoc],
    take_left_of_append _ _ _ (by rw [List.length_append]; rfl),
    String.data_append]

theorem getPrefixUrl_http (mid seg : String) (hs : '/' ∉ seg.data) :
    getPrefixUrl ("http://" ++ mid ++ "/" ++ seg) = "http://" ++ mid := by
  have hdata : ("http://" ++ mid ++ "/" ++ seg).data =
      "http://".data ++ (mid.data ++ '/' :: seg.data) := by
    simp [String.data_append]
  have hdrop : ("http://".data ++ (mid.data ++ '/' :: seg.data)).drop 7 =
      mid.data ++ '/' :: seg.data := by
    simpa using List.drop_left "http://".data (mid.data ++ '/' :: seg.data)
  unfold getPrefixUrl
  apply String.ext
  show (("http://" ++ mid ++ "/" ++ seg).data.take _) = _
  rw [hdata, sliceEq_http_not_https, if_neg (by simp), sliceEq_append_self, if_pos rfl,
    hdrop, rfindCharIdx_append_cons mid.data seg.data hs,
    show ((7 : Int) + (mid.data.length : Int)).toNat = 7 + mid.data.length from by omega,
    show "http://".data ++ (mid.data ++ '/' :: seg.data) =
      ("http://".data ++ mid.data) ++ ('/' :: seg.data) from by rw [List.append_assoc],
    take_left_of_append _ _ _ (by rw [List.length_append]; rfl),
    String.data_append]

/-- C6 counterexample: for a base URL with no `/` after the host,
`get_absolute_url` does not append the root-relative link to the scheme+host
root (it truncates the protocol instead); and an empty extracted link yields
the empty string rather than a resolved URL. -/
theorem url_resolution_counterexample :
    (getAbsoluteUrl "https://dblp.org" "/rec/osdi2020.html" = "https://rec/osdi2020.html"
      ∧ getAbsoluteUrl "https://dblp.org" "/rec/osdi2020.html" ≠
          "https://dblp.org" ++ "/rec/osdi2020.html")
    ∧ (getAbsoluteUrl "https://dblp.org/db/conf/osdi/osdi2020.html" "" = ""
      ∧ getAbsoluteUrl "https://dblp.org/db/conf/osdi/osdi2020.html" "" ≠
          "https://dblp.org/db/conf/osdi" ++ "/" ++ "") := by
  decide

/-- C6 amended: URL resolution behaves as claimed on well-formed inputs: an
absolute `http(s)://` link is returned unchanged; for a base of the shape
`proto ++ host ++ "/" ++ rest` (no `/` in the host), a root-relative link is
appended to the scheme+host root `proto ++ host`; for a base of the shape
`proto ++ mid ++ "/" ++ seg` (the last path segment `seg` holding no `/`)
and a non-empty relative link, the link replaces the last path segment.  A
base without a `/` after the host, or an empty link, falls outside these
shapes and behaves as in the counterexample. -/
theorem url_resolution_amended :
    (∀ (base link : String),
      (sliceEq link.data "https://".data || sliceEq link.data "http://".data) = true →
      getAbsoluteUrl base link = link)
    ∧ (∀ (proto host rest link : String), proto = "https://" ∨ proto = "http://" →
      '/' ∉ host.data → link.data.head? = some '/' →
      getAbsoluteUrl (proto ++ host ++ "/" ++ rest) link = proto ++ host ++ link)
    ∧ (∀ (proto mid seg link : String), proto = "https://" ∨ proto = "http://" →
      '/' ∉ seg.data → link ≠ "" → link.data.head? ≠ some '/' →
      (sliceEq link.data "https://".data || sliceEq link.data "http://".data) = false →
      getAbsoluteUrl (proto ++ mid ++ "/" ++ seg) link = proto ++ mid ++ "/" ++ link) := by
  refine ⟨?_, ?_, ?_⟩
  · intro base link h
    have hne : ¬(link = "") := by
      intro he
      subst he
      simp [sliceEq] at h
    rw [getAbsoluteUrl, if_neg hne, if_pos h]
  · intro proto host rest link hp hh hhead
    obtain ⟨c, t, hlink⟩ : ∃ c t, link.data = c :: t := by
      cases hl : link.data with
      | nil => rw [hl] at hhead; cases hhead
      | cons c t => exact ⟨c, t, rfl⟩
    have hc : c = '/' := by
      rw [hlink] at hhead
      injection hhead with h'
    subst hc
    have hne : ¬(link = "") := by
      intro he
      rw [he] at hlink
      cases hlink
    have hnp : (sliceEq link.data "https://".data
        || sliceEq link.data "http://".data) = false := by
      rw [hlink, sliceEq_slash_not_https, sliceEq_slash_not_http]
      rfl
    rw [getAbsoluteUrl, if_neg hne, if_neg (by rw [hnp]; simp),
      if_pos (show link.data.head? = some '/' from by rw [hlink]; rfl)]
    rcases hp with rfl | rfl
    · rw [getRootUrl_https host rest hh, String.append_assoc]
    · rw [getRootUrl_http host rest hh, String.append_assoc]
  · intro proto mid seg link hp hs hne hhead hnp
    rw [getAbsoluteUrl, if_neg hne, if_neg (by rw [hnp]; simp), if_neg hhead]
    rcases hp with rfl | rfl
    · rw [getPrefixUrl_https mid seg hs, String.append_assoc, String.append_assoc]
    · rw [getPrefixUrl_http mid seg hs, String.append_assoc, String.append_assoc]

/-- Witness for C6's amended root-relative clause at the dblp example of the
spec. -/
theorem url_resolution_amended_witness :
    getAbsoluteUrl ("https://" ++ "dblp.org" ++ "/" ++ "db/conf/osdi/osdi2020.html")
        "/rec/osdi2020.html" =
      "https://" ++ "dblp.org" ++ "/rec/osdi2020.html" :=
  url_resolution_amended.2.1 "https://" "dblp.org" "db/conf/osdi/osdi2020.html"
    "/rec/osdi2020.html" (Or.inl rfl) (by decide) rfl

/-! ## C9 -/

theorem drop_left_of_append (l1 l2 : List Char) (n : Nat) (h : n = l1.length) :
    (l1 ++ l2).drop n = l2 := by
  rw [h]
  exact List.drop_left l1 l2

theorem asciiLower_isAlpha {c : Char} (h : c.isAlpha = true) :
    (asciiLower c).isAlpha = true := by
  unfold asciiLower
  split <;> first | decide | exact h

theorem asciiLower_eq_of_not_alpha {c : Char} (h : c.isAlpha = false) :
    asciiLower c = c := by
  unfold asciiLower
  split <;> first | rfl | (exact absurd h (by decide))

/-- C9 counterexample: the core filename derivation (src/core/venue.py,
used by the CLI pipeline) takes the `os.path.splitext` suffix verbatim, so a
URL whose suffix after the last dot holds non-letter characters (a query
string) keeps the whole suffix instead of defaulting to `.pdf` as the claim
requires. -/
theorem extension_rule_counterexample :
    coreGetFilename "paper" "T" "https://x.com/a.pdf?d=1" (some "Paper") =
      "paper/T-Paper.pdf?d=1"
    ∧ coreGetFilename "paper" "T" "https://x.com/a.pdf?d=1" (some "Paper") ≠
        "paper/T-Paper.pdf" := by
  constructor
  · rfl
  · decide

/-- C9 amended: the claimed extension rule is exactly the behaviour of
`get_file_extension_name_or_default` and hence of the src/venue.py filename
derivation: a URL ending in a plausible extension (a dot followed by letters
only) keeps that suffix lowercased, a URL whose last-dot suffix has a
non-letter or with no dot at all defaults to `.pdf`; the core
(src/core/venue.py) derivation instead keeps the splitext suffix verbatim,
as the counterexample shows. -/
theorem extension_rule_amended :
    (∀ (s w : String), '.' ∉ w.data → w ≠ "" → w.data.all Char.isAlpha = true →
      getFileExtensionNameOrDefault (s ++ "." ++ w) ".pdf" = pyLower ("." ++ w))
    ∧ (∀ (s w : String), '.' ∉ w.data → (w = "" ∨ w.data.all Char.isAlpha = false) →
      getFileExtensionNameOrDefault (s ++ "." ++ w) ".pdf" = ".pdf")
    ∧ (∀ (url : String), '.' ∉ url.data →
      getFileExtensionNameOrDefault url ".pdf" = ".pdf")
    ∧ (∀ (dir t u : String),
      srcGetFilename dir t u (some "Paper") =
        pyPathJoin dir (sanitizeTitle t) ++ "-" ++ "Paper" ++
          getFileExtensionNameOrDefault u ".pdf") := by
  refine ⟨?_, ?_, ?_, ?_⟩
  · intro s w hw hne hall
    have hdata : (s ++ "." ++ w).data = s.data ++ '.' :: w.data := by
      simp [String.data_append]
    have hplw : pyLower (String.mk ('.' :: w.data)) = pyLower ("." ++ w) := by
      apply String.ext
      simp [pyLower, String.data_append]
    have hext : extMatchesDotLetters (pyLower ("." ++ w)) = true := by
      have hdd : (pyLower ("." ++ w)).data = '.' :: w.data.map asciiLower := by
        simp [pyLower, String.data_append]
        all_goals decide
      have h1 : (w.data.map asciiLower).all Char.isAlpha = true := by
        rw [List.all_map]
        rw [List.all_eq_true] at hall ⊢
        intro c hc
        exact asciiLower_isAlpha (hall c hc)
      have h2 : (w.data.map asciiLower).isEmpty = false := by
        cases hwd : w.data with
        | nil =>
          exact absurd (by apply String.ext; rw [hwd] : w = "") hne
        | cons a l => rfl
      unfold extMatchesDotLetters
      rw [hdd]
      simp [h1, h2]
    unfold getFileExtensionNameOrDefault
    rw [hdata, rfindCharIdx_append_cons s.data w.data hw,
      if_neg (by omega : ¬((s.data.length : Int) = -1)),
      show ((s.data.length : Int)).toNat = s.data.length from by omega,
      drop_left_of_append s.data ('.' :: w.data) s.data.length rfl,
      hplw, hext, if_pos rfl]
  · intro s w hw hcase
    have hdata : (s ++ "." ++ w).data = s.data ++ '.' :: w.data := by
      simp [String.data_append]
    have hext : extMatchesDotLetters (pyLower (String.mk ('.' :: w.data))) = false := by
      have hdd : (pyLower (String.mk ('.' :: w.data))).data =
          '.' :: w.data.map asciiLower := by
        simp [pyLower]
        all_goals decide
      rcases hcase with hempty | hfalse
      · subst hempty
        decide
      · have h1 : (w.data.map asciiLower).all Char.isAlpha = false := by
          rw [List.all_map]
          rw [List.all_eq_false] at hfalse ⊢
          obtain ⟨c, hc, hnc⟩ := hfalse
          refine ⟨c, hc, ?_⟩
          have hca : c.isAlpha = false := by
            cases hb : c.isAlpha
            · rfl
            · exact absurd hb hnc
          rw [Function.comp_apply, asciiLower_eq_of_not_alpha hca]
          simp [hca]
        unfold extMatchesDotLetters
        rw [hdd]
        simp [h1]
    unfold getFileExtensionNameOrDefault
    rw [hdata, rfindCharIdx_append_cons s.data w.data hw,
      if_neg (by omega : ¬((s.data.length : Int) = -1)),
      show ((s.data.length : Int)).toNat = s.data.length from by omega,
      drop_left_of_append s.data ('.' :: w.data) s.data.length rfl,
      hext, if_neg (by simp)]
  · intro url h
    unfold getFileExtensionNameOrDefault
    rw [rfindCharIdx_not_mem h, if_pos rfl]
  · intro dir t u
    simp only [srcGetFilename]
    rw [if_neg (by decide : ¬(("Paper" : String) = ""))]

/-- Witness for C9's amended extension rule on a URL ending in `.PDF`. -/
theorem extension_rule_amended_witness :
    getFileExtensionNameOrDefault ("https://x.com/a" ++ "." ++ "PDF") ".pdf" =
      pyLower ("." ++ "PDF") :=
  extension_rule_amended.1 "https://x.com/a" "PDF" (by decide) (by decide) (by decide)

/-! ## C5 -/

theorem subRuns_slashdot_filter (l : List Char) :
    subRuns isSlashDot [] l = l.filter (fun c => !isSlashDot c) :=
  subRunsGo_nil_rep isSlashDot l false

/-- C5: the filename is the save directory joined with the title after
removing every '/' and '.' character and then collapsing every maximal run
of non-word characters to a single '-', followed by `-Paper`/`-Slides` and
the URL-derived extension (defaulting to `.pdf`); the derivation is a pure
function of (title, url) by construction, and titles with equal sanitized
forms collide on the same path — e.g. "A/B: Study" and "AB Study". -/
theorem filename_derivation :
    (∀ (dir t u sfx : String), sfx ≠ "" →
      coreGetFilename dir t u (some sfx) =
        pyPathJoin dir (String.mk (subRuns (fun c => !isWordChar c) ['-']
          (t.data.filter (fun c => !isSlashDot c)))) ++ "-" ++ sfx ++
          (if pySplitextExt u = "" then ".pdf" else pySplitextExt u))
    ∧ (∀ (dir t1 t2 u sfx : String), sanitizeTitle t1 = sanitizeTitle t2 →
      coreGetFilename dir t1 u (some sfx) = coreGetFilename dir t2 u (some sfx))
    ∧ sanitizeTitle "A/B: Study" = sanitizeTitle "AB Study" := by
  refine ⟨?_, ?_, by decide⟩
  · intro dir t u sfx hs
    simp only [coreGetFilename, sanitizeTitle, subRuns_slashdot_filter]
    rw [if_neg hs]
  · intro dir t1 t2 u sfx h
    simp only [coreGetFilename]
    rw [h]

/-- Witness for C5: the two claimed colliding titles produce the same
path. -/
theorem filename_derivation_witness :
    coreGetFilename "paper" "A/B: Study" "x.pdf" (some "Paper") =
      coreGetFilename "paper" "AB Study" "x.pdf" (some "Paper") :=
  filename_derivation.2.1 "paper" "A/B: Study" "AB Study" "x.pdf" "Paper" (by decide)

end PD
